import Mathlib

/-!
Verification development for the LichtFeld COLMAP plugin
(`features.py`, `matching.py`, `reconstruction.py`, `undistort.py`,
`pipeline.py`, `runner.py`, `utils.py`).

Filesystem paths are modelled as lists of path components (`p / name` is
`p ++ [name]`).  The pycolmap library calls are opaque collaborators: each
call's outcome (return value or raised exception, the latter modelled by its
message string) is a parameter of the embedding.  Exceptions are modelled with
`Except String`.  Progress percentages published by the runner are the exact
values 0/25/50/75/100, embedded as `Nat`.
-/

/-- A filesystem path, as a list of components. -/
abbrev FsPath := List String

/-- Embedding of the dataclass `ColmapConfig` (src/utils.py).  The
`__post_init__` side effects (temp-directory allocation, `mkdir`) are
filesystem I/O outside the embedding; `output_path` is the directory the
configuration ends up holding. -/
structure ColmapConfig where
  image_path : FsPath
  output_path : FsPath
  camera_mode : String := "AUTO"
  camera_model : String := "OPENCV"
  match_type : String := "exhaustive"
  max_image_size : Nat := 3200
  max_num_features : Nat := 8192

/-- `ColmapConfig.database_path` (src/utils.py line 31): `output_path / "database.db"`. -/
def ColmapConfig.database_path (c : ColmapConfig) : FsPath :=
  c.output_path ++ ["database.db"]

/-- `ColmapConfig.sparse_path` (src/utils.py line 35): `output_path / "sparse"`. -/
def ColmapConfig.sparse_path (c : ColmapConfig) : FsPath :=
  c.output_path ++ ["sparse"]

/-- Modelled from the spec: the accessor `ColmapConfig.undistorted_path` is
referenced by src/undistort.py lines 25/30 and src/runner.py line 147, but no
file under src/ defines it (src/utils.py defines only `database_path` and
`sparse_path`; the repository's second, divergent runner version mentioned in
the spec is not among the provided files).  Spec §3/§6: undistorted-output
directory = output dir / fixed name, `{output_dir}/undistorted/`. -/
def ColmapConfig.undistorted_path (c : ColmapConfig) : FsPath :=
  c.output_path ++ ["undistorted"]

/-- Embedding of the dataclass `ReconstructionResult` (src/utils.py).
`undistorted_path` is not a declared dataclass field in src/utils.py: it is
attached post hoc by src/runner.py line 147 (Python instance-attribute
assignment) and read by the panel; modelled from the spec ("undistorted-images
path (optional, only if that stage ran)") as an optional field defaulting to
`none`. -/
structure ReconstructionResult where
  success : Bool
  sparse_path : Option FsPath := none
  num_cameras : Nat := 0
  num_images : Nat := 0
  num_points : Nat := 0
  mean_reproj_error : Float := 0.0
  warnings : List String := []
  error : Option String := none
  undistorted_path : Option FsPath := none

/-- The six glob patterns of src/features.py lines 27–32, in source order.
`Path.glob` is case-sensitive on a case-sensitive filesystem, so the source
enumerates the all-lowercase and all-uppercase spelling of each accepted
extension. -/
def imageGlobs : List String := ["jpg", "JPG", "jpeg", "JPEG", "png", "PNG"]

/-- The names of a directory listing matched by the glob pattern `*.ext`:
exactly the names ending in `.ext` (case-sensitively), expressed as a suffix
test on the character list. -/
def globMatch (ext : String) (names : List String) : List String :=
  names.filter (fun n => ("." ++ ext).data.isSuffixOf n.data)

/-- Does `name` match at least one of the six source glob patterns? -/
def sourceAcceptedImage (name : String) : Bool :=
  imageGlobs.any (fun e => ("." ++ e).data.isSuffixOf name.data)

/-- Embedding of `extract_features` (src/features.py): concatenates the six
glob results over the input directory listing (`names`), raises
`ValueError(f"No images found in {config.image_path}")` when the concatenation
is empty, and otherwise performs the opaque pycolmap extraction call and
returns the image count.  `dir_str` is the rendering of `config.image_path`
used in the error message. -/
def extract_features (names : List String) (dir_str : String) : Except String Nat :=
  let images := imageGlobs.foldr (fun e acc => globMatch e names ++ acc) []
  if images.isEmpty then
    Except.error ("No images found in " ++ dir_str)
  else
    Except.ok images.length

/-- Spec-side predicate, following the claim's words: the file's extension,
compared case-insensitively (lower-casing the name first), belongs to the
fixed set jpg/jpeg/png. -/
def specAcceptedImage (name : String) : Bool :=
  ["jpg", "jpeg", "png"].any
    (fun e => ("." ++ e).data.isSuffixOf (name.data.map Char.toLower))

/-- Embedding of one candidate reconstruction as produced by the opaque
`pycolmap.incremental_mapping` collaborator (src/reconstruction.py): only the
statistics the source reads. -/
structure ReconModel where
  num_images : Nat
  num_cameras : Nat := 0
  num_points3D : Nat := 0
  mean_reproj : Float := 0.0

/-- `max(reconstructions.values(), key=lambda r: r.num_images())`
(src/reconstruction.py line 45): Python's `max` keeps the current element
unless the new key is strictly greater, so the first element with the maximal
key wins. -/
def pickBest (r0 : ReconModel) (rest : List ReconModel) : ReconModel :=
  rest.foldl (fun acc r => if acc.num_images < r.num_images then r else acc) r0

/-- Embedding of `reconstruct` (src/reconstruction.py): the pycolmap
incremental-mapping call is the opaque collaborator and its output — the
candidate reconstructions, in dictionary insertion order — is the parameter
`recs`.  The `mkdir`/`write` filesystem effects are outside the embedding. -/
def reconstruct (cfg : ColmapConfig) (recs : List ReconModel) : ReconstructionResult :=
  match recs with
  | [] => { success := false, error := some "No valid reconstructions found" }
  | r0 :: rest =>
    let best := pickBest r0 rest
    { success := true
      sparse_path := some (cfg.sparse_path ++ ["0"])
      num_cameras := best.num_cameras
      num_images := best.num_images
      num_points := best.num_points3D
      mean_reproj_error := best.mean_reproj }

/-- Embedding of the `try:` block of `run_pipeline` (src/pipeline.py lines
42–45): calls extraction, matching, reconstruction in order (each outcome is a
parameter of the embedding), recording which stage functions were invoked
(`0` extraction, `1` matching, `2` reconstruction, `3` undistortion).  The
first raised exception aborts the block. -/
def pipelineBody (be bm : Except String Nat)
    (br : Except String ReconstructionResult) :
    List Nat × Except String ReconstructionResult :=
  match be with
  | Except.error e => ([0], Except.error e)
  | Except.ok _ =>
    match bm with
    | Except.error e => ([0, 1], Except.error e)
    | Except.ok _ =>
      match br with
      | Except.error e => ([0, 1, 2], Except.error e)
      | Except.ok r => ([0, 1, 2], Except.ok r)

/-- Embedding of `run_pipeline` (src/pipeline.py): the `try/except` wrapper
around `pipelineBody`, converting any exception into a failed
`ReconstructionResult` whose `error` is the exception's message.  The function
is total: no exception channel remains in its type. -/
def run_pipeline (be bm : Except String Nat)
    (br : Except String ReconstructionResult) :
    List Nat × ReconstructionResult :=
  let r := pipelineBody be bm br
  match r.2 with
  | Except.ok res => (r.1, res)
  | Except.error e => (r.1, { success := false, error := some e })

/-- The stage enumeration `ColmapStage` (src/runner.py). -/
inductive ColmapStage
  | IDLE
  | EXTRACTING
  | MATCHING
  | RECONSTRUCTING
  | UNDISTORTING
  | DONE
  | ERROR
  | CANCELLED
deriving DecidableEq, Repr

/-- One observable action of the worker thread `ColmapJob._run`
(src/runner.py):

* `upd st p m` — the lock-protected write of `_stage`/`_progress`/`_status`
  performed by `_update` (the subsequent `on_progress` call happens outside
  the lock and is modelled by the `Behaviour`, not recorded as an event);
* `callStage t` — invocation of the `t`-th stage function (`0` =
  `extract_features`, `1` = `match_features`, `2` = `reconstruct`,
  `3` = `undistort_images`);
* `setResult r` — the lock-protected write of `_result`;
* `completeCall r` — invocation of the user `on_complete` callback;
* `errorCall m` — invocation of the user `on_error` callback with an
  exception whose message is `m`. -/
inductive REvent
  | upd (stage : ColmapStage) (progress : Nat) (status : String)
  | callStage (tag : Nat)
  | setResult (r : ReconstructionResult)
  | completeCall (r : ReconstructionResult)
  | errorCall (msg : String)

/-- The environment of one `ColmapJob._run` execution: the outcome of each of
the four blocking stage-function calls (exceptions carry their message), the
value the `check_cancelled` closure reads from `_cancelled` at its `k`-th
call, and the user-supplied callbacks (`none` when not supplied; a supplied
callback returns `ok` or raises). -/
structure Behaviour where
  extractOut : Except String Nat
  matchOut : Except String Nat
  reconstructOut : Except String ReconstructionResult
  undistortOut : Except String Unit
  cancelRead : Nat → Bool
  onProgress : Option (ColmapStage → Nat → String → Except String Unit)
  onComplete : Option (ReconstructionResult → Except String Unit)
  onError : Option (String → Except String Unit)

/-- `ColmapJob._update` followed by the continuation `k`: the locked state
write always happens; if the supplied `on_progress` raises, the raise
propagates and `k` is not reached. -/
def withUpd (b : Behaviour) (st : ColmapStage) (p : Nat) (m : String)
    (k : Unit → List REvent × Option String) : List REvent × Option String :=
  match b.onProgress with
  | none => let r := k (); (REvent.upd st p m :: r.1, r.2)
  | some f =>
    match f st p m with
    | Except.ok _ => let r := k (); (REvent.upd st p m :: r.1, r.2)
    | Except.error e => ([REvent.upd st p m], some e)

/-- A blocking stage-function call followed by the continuation `k`: the call
is recorded, then either its exception propagates or `k` consumes its
value. -/
def withStage {α : Type} (tag : Nat) (out : Except String α)
    (k : α → List REvent × Option String) : List REvent × Option String :=
  match out with
  | Except.error e => ([REvent.callStage tag], some e)
  | Except.ok a => let r := k a; (REvent.callStage tag :: r.1, r.2)

/-- Python `x or default` for an optional status string
(`result.error or "Reconstruction failed"`, src/runner.py line 135): `None`
and the empty string are falsy. -/
def pyOr (o : Option String) (d : String) : String :=
  match o with
  | some s => if s = "" then d else s
  | none => d

/-- `str(Exception(x))` for `x` an optional string (src/runner.py line 138
builds `Exception(result.error)`): `str(Exception(None))` is `"None"`. -/
def excMsg (o : Option String) : String :=
  match o with
  | some s => s
  | none => "None"

/-- `if self.on_error: self.on_error(e)`: the invocation is recorded when the
callback is supplied; if the callback itself raises, the raise propagates. -/
def fireError (b : Behaviour) (e : String) : List REvent × Option String :=
  match b.onError with
  | none => ([], none)
  | some h =>
    match h e with
    | Except.ok _ => ([REvent.errorCall e], none)
    | Except.error e2 => ([REvent.errorCall e], some e2)

/-- `if self.on_complete: self.on_complete(result)`: as `fireError`. -/
def fireComplete (b : Behaviour) (r : ReconstructionResult) :
    List REvent × Option String :=
  match b.onComplete with
  | none => ([], none)
  | some h =>
    match h r with
    | Except.ok _ => ([REvent.completeCall r], none)
    | Except.error e2 => ([REvent.completeCall r], some e2)

/-- Prepend one event to an action's output. -/
def consE (e : REvent) (r : List REvent × Option String) :
    List REvent × Option String :=
  (e :: r.1, r.2)

/-- `ReconstructionResult(success=False, error=str(e))` as built by the
`except` handler of `_run` (src/runner.py line 165). -/
def failedResult (e : String) : ReconstructionResult :=
  { success := false, error := some e }

/-- Embedding of the `try:` block of `ColmapJob._run` (src/runner.py lines
105–160), line by line: publish *entering extraction* at 0; cancellation
check; extraction; *features extracted* at 25; *entering matching* at 25;
cancellation check; matching; *matching complete* at 50; *entering
reconstruction* at 50; cancellation check; reconstruction; on a
structurally-failed result store it, publish `ERROR` at 50 and fire
`on_error`; otherwise *entering undistortion* at 75; cancellation check;
undistortion; attach `config.undistorted_path` to the result, store it,
publish `DONE` at 100 and fire `on_complete`.  The second component is the
exception (message) propagating out of the block, `none` when the block
returns. -/
def tryBody (b : Behaviour) (cfg : ColmapConfig) : List REvent × Option String :=
  withUpd b ColmapStage.EXTRACTING 0 "Extracting features..." fun _ =>
  if b.cancelRead 0 then
    withUpd b ColmapStage.CANCELLED 0 "Cancelled" fun _ => ([], none)
  else
  withStage 0 b.extractOut fun _ =>
  withUpd b ColmapStage.EXTRACTING 25 "Features extracted" fun _ =>
  withUpd b ColmapStage.MATCHING 25 "Matching features..." fun _ =>
  if b.cancelRead 1 then
    withUpd b ColmapStage.CANCELLED 25 "Cancelled" fun _ => ([], none)
  else
  withStage 1 b.matchOut fun _ =>
  withUpd b ColmapStage.MATCHING 50 "Matching complete" fun _ =>
  withUpd b ColmapStage.RECONSTRUCTING 50 "Reconstructing..." fun _ =>
  if b.cancelRead 2 then
    withUpd b ColmapStage.CANCELLED 50 "Cancelled" fun _ => ([], none)
  else
  withStage 2 b.reconstructOut fun result =>
  if result.success = false then
    consE (REvent.setResult result)
      (withUpd b ColmapStage.ERROR 50 (pyOr result.error "Reconstruction failed") fun _ =>
        fireError b (excMsg result.error))
  else
  withUpd b ColmapStage.UNDISTORTING 75 "Undistorting images..." fun _ =>
  if b.cancelRead 3 then
    withUpd b ColmapStage.CANCELLED 75 "Cancelled" fun _ => ([], none)
  else
  withStage 3 b.undistortOut fun _ =>
  consE (REvent.setResult { result with undistorted_path := some cfg.undistorted_path })
    (withUpd b ColmapStage.DONE 100 "Complete" fun _ =>
      fireComplete b { result with undistorted_path := some cfg.undistorted_path })

/-- The value of `self._progress` after a list of worker actions (the last
published progress, 0 before any update). -/
def lastProgress (evs : List REvent) : Nat :=
  evs.foldl (fun acc e => match e with | REvent.upd _ p _ => p | _ => acc) 0

/-- Embedding of the `except Exception as e:` handler of `_run` (src/runner.py
lines 162–168): publish `ERROR` at the current progress with the exception's
message (if the supplied `on_progress` raises here, that raise escapes the
worker and the rest of the handler is skipped), store the failed result, and
fire `on_error` (whose own raise would also escape the worker). -/
def exceptBlock (b : Behaviour) (p : Nat) (e : String) :
    List REvent × Option String :=
  match b.onProgress with
  | some f =>
    match f ColmapStage.ERROR p e with
    | Except.error e2 => ([REvent.upd ColmapStage.ERROR p e], some e2)
    | Except.ok _ =>
      consE (REvent.upd ColmapStage.ERROR p e)
        (consE (REvent.setResult (failedResult e)) (fireError b e))
  | none =>
    consE (REvent.upd ColmapStage.ERROR p e)
      (consE (REvent.setResult (failedResult e)) (fireError b e))

/-- Embedding of `ColmapJob._run` (src/runner.py lines 104–168): the `try`
block, with its exception — if any — handled by the `except` block.  Returns
the worker's action sequence and the exception (message) escaping the worker
thread unhandled (`none` when `_run` returns). -/
def runJob (b : Behaviour) (cfg : ColmapConfig) : List REvent × Option String :=
  match tryBody b cfg with
  | (evs, none) => (evs, none)
  | (evs, some e) =>
    let h := exceptBlock b (lastProgress evs) e
    (evs ++ h.1, h.2)

/-- How many times the completion callback was invoked. -/
def countComplete (evs : List REvent) : Nat :=
  evs.countP fun e => match e with | REvent.completeCall _ => true | _ => false

/-- How many times the error callback was invoked. -/
def countError (evs : List REvent) : Nat :=
  evs.countP fun e => match e with | REvent.errorCall _ => true | _ => false

/-- How many times the error callback was invoked with message `m`. -/
def countErrorWith (m : String) (evs : List REvent) : Nat :=
  evs.countP fun e => match e with | REvent.errorCall m2 => m2 = m | _ => false

/-- How many times the stage function with tag `t` was invoked. -/
def countCall (t : Nat) (evs : List REvent) : Nat :=
  evs.countP fun e => match e with | REvent.callStage u => u = t | _ => false

/-- The published `(stage, progress)` pairs, in publication order. -/
def updPairs (evs : List REvent) : List (ColmapStage × Nat) :=
  evs.filterMap fun e => match e with
    | REvent.upd st p _ => some (st, p)
    | _ => none

/-- The lock-protected mutable record of a `ColmapJob`
(`_stage`/`_progress`/`_status`/`_result`, src/runner.py). -/
structure JobState where
  stage : ColmapStage := ColmapStage.IDLE
  progress : Nat := 0
  status : String := ""
  result : Option ReconstructionResult := none

/-- Effect of one worker action on the shared job state (callback and
stage-function invocations do not touch it). -/
def applyEvent (s : JobState) (e : REvent) : JobState :=
  match e with
  | REvent.upd st p m => { s with stage := st, progress := p, status := m }
  | REvent.setResult r => { s with result := some r }
  | _ => s

/-- Every job state a concurrent reader can observe during a run: the state
after each prefix of the worker's lock-protected writes, starting from the
initial `IDLE` state. -/
def snapshots (evs : List REvent) : List JobState :=
  List.scanl applyEvent {} evs

/-- The job state after the run. -/
def finalState (evs : List REvent) : JobState :=
  evs.foldl applyEvent {}

/-- The supplied `on_progress` callback (if any) always returns normally. -/
def ProgOk (b : Behaviour) : Prop :=
  ∀ f, b.onProgress = some f → ∀ st p m, f st p m = Except.ok ()

/-- The supplied `on_complete` callback (if any) always returns normally. -/
def CompleteOk (b : Behaviour) : Prop :=
  ∀ g, b.onComplete = some g → ∀ r, g r = Except.ok ()

/-- The supplied `on_error` callback (if any) always returns normally. -/
def ErrorOk (b : Behaviour) : Prop :=
  ∀ g, b.onError = some g → ∀ e, g e = Except.ok ()

/-- The run raises exception `e` out of a stage function: the stage in
question is reached (no earlier cancellation, all earlier stages succeed) and
its call fails with `e`. -/
def raisesAt (b : Behaviour) (e : String) : Prop :=
  (b.cancelRead 0 = false ∧ b.extractOut = Except.error e) ∨
  (b.cancelRead 0 = false ∧ (∃ n, b.extractOut = Except.ok n) ∧
    b.cancelRead 1 = false ∧ b.matchOut = Except.error e) ∨
  (b.cancelRead 0 = false ∧ (∃ n, b.extractOut = Except.ok n) ∧
    b.cancelRead 1 = false ∧ (∃ n, b.matchOut = Except.ok n) ∧
    b.cancelRead 2 = false ∧ b.reconstructOut = Except.error e) ∨
  (b.cancelRead 0 = false ∧ (∃ n, b.extractOut = Except.ok n) ∧
    b.cancelRead 1 = false ∧ (∃ n, b.matchOut = Except.ok n) ∧
    b.cancelRead 2 = false ∧
    (∃ r, b.reconstructOut = Except.ok r ∧ r.success = true) ∧
    b.cancelRead 3 = false ∧ b.undistortOut = Except.error e)

/-- The worker reaches its `k`-th cancellation check (`k ≤ 3`): every earlier
check read `false` and every earlier stage call succeeded. -/
def reachesCheck (b : Behaviour) : Nat → Prop
  | 0 => True
  | 1 => b.cancelRead 0 = false ∧ (∃ n, b.extractOut = Except.ok n)
  | 2 => reachesCheck b 1 ∧ b.cancelRead 1 = false ∧
      (∃ n, b.matchOut = Except.ok n)
  | 3 => reachesCheck b 2 ∧ b.cancelRead 2 = false ∧
      (∃ r, b.reconstructOut = Except.ok r ∧ r.success = true)
  | _ => False

/-- Position of a stage in the linear state machine of spec §4.3; the three
terminal states (`Done`, `Error`, `Cancelled`) are maximal — no terminal state
is "earlier" than another. -/
def stageRank : ColmapStage → Nat
  | ColmapStage.IDLE => 0
  | ColmapStage.EXTRACTING => 1
  | ColmapStage.MATCHING => 2
  | ColmapStage.RECONSTRUCTING => 3
  | ColmapStage.UNDISTORTING => 4
  | ColmapStage.DONE => 5
  | ColmapStage.ERROR => 5
  | ColmapStage.CANCELLED => 5

/-- "Not a regression": the later published pair has a stage no earlier in
the state machine and a progress no smaller. -/
def pairLe (a b : ColmapStage × Nat) : Prop :=
  stageRank a.1 ≤ stageRank b.1 ∧ a.2 ≤ b.2

instance : IsTrans (ColmapStage × Nat) pairLe :=
  ⟨fun _ _ _ hab hbc => ⟨le_trans hab.1 hbc.1, le_trans hab.2 hbc.2⟩⟩

/-- Is the stored result a successful one? -/
def stateGood (s : JobState) : Bool :=
  match s.result with
  | some r => r.success
  | none => false

/-- Syntactic invariant of a worker action sequence, threading `d` (is the
currently published stage `DONE`?) and `g` (is the currently stored result a
successful one?): a `DONE` update is only published while the stored result is
successful, and no unsuccessful result is stored while the published stage is
`DONE`. -/
def eventsOK : Bool → Bool → List REvent → Prop
  | _, _, [] => True
  | _, g, REvent.upd st _ _ :: rest =>
      (st = ColmapStage.DONE → g = true) ∧
      eventsOK (decide (st = ColmapStage.DONE)) g rest
  | d, _, REvent.setResult r :: rest =>
      (d = true → r.success = true) ∧ eventsOK d r.success rest
  | d, g, _ :: rest => eventsOK d g rest

/-- A concrete configuration for witnesses. -/
def cfgW : ColmapConfig := { image_path := ["images"], output_path := ["out"] }

/-- A second configuration with the same output directory. -/
def cfgW2 : ColmapConfig := { image_path := ["other"], output_path := ["out"] }

/-- A successful collaborator result for witnesses. -/
def rW : ReconstructionResult := { success := true, num_images := 3 }

/-- Base witness behaviour: all four stages succeed, no cancellation, no
callbacks supplied. -/
def bBase : Behaviour :=
  { extractOut := Except.ok 3
    matchOut := Except.ok 5
    reconstructOut := Except.ok rW
    undistortOut := Except.ok ()
    cancelRead := fun _ => false
    onProgress := none
    onComplete := none
    onError := none }

/-- Witness behaviour for the C1 counterexample: every stage succeeds but the
user-supplied completion callback raises; an error callback is supplied and
returns normally. -/
def bRaisingComplete : Behaviour :=
  { bBase with
    onComplete := some (fun _ => Except.error "callback boom")
    onError := some (fun _ => Except.ok ()) }

/-- Witness behaviour with well-behaved callbacks supplied for all three
channels. -/
def bAllCallbacks : Behaviour :=
  { bBase with
    onProgress := some (fun _ _ _ => Except.ok ())
    onComplete := some (fun _ => Except.ok ())
    onError := some (fun _ => Except.ok ()) }

/-- Witness behaviour whose extraction stage raises, with a well-behaved
error callback supplied. -/
def bExtractRaises : Behaviour :=
  { bBase with
    extractOut := Except.error "boom"
    onError := some (fun _ => Except.ok ()) }

/-- Witness behaviour whose reconstruction stage returns the structural
failure produced by `reconstruct` on an empty candidate set. -/
def bNoRecon : Behaviour :=
  { bBase with
    reconstructOut := Except.ok (reconstruct cfgW [])
    onError := some (fun _ => Except.ok ()) }

/-- Witness behaviour cancelled at the first boundary. -/
def bCancelled : Behaviour :=
  { bBase with cancelRead := fun k => decide (k = 0) }

/-- Witness behaviour whose extraction raises and no callbacks are given
(used to exhibit an `Error` snapshot with no stored result). -/
def bErrNoCb : Behaviour := { bBase with extractOut := Except.error "boom" }

/-- The reader-observable snapshot of `bErrNoCb`'s run right after the
handler's `ERROR` publication and before its result store. -/
def sErrW : JobState :=
  { stage := ColmapStage.ERROR, progress := 0, status := "boom", result := none }

/-! ### Helper lemmas about the runner embedding -/

/-- When the supplied `on_progress` never raises, `_update` publishes its
write and continues. -/
theorem withUpd_eq (b : Behaviour) (hp : ProgOk b) (st : ColmapStage) (p : Nat)
    (m : String) (k : Unit → List REvent × Option String) :
    withUpd b st p m k = (REvent.upd st p m :: (k ()).1, (k ()).2) := by
  unfold withUpd
  cases hf : b.onProgress with
  | none => rfl
  | some f => simp only [hp f hf]

/-- A succeeding stage call records its invocation and continues. -/
theorem withStage_ok {α : Type} (t : Nat) (out : Except String α) (a : α)
    (h : out = Except.ok a) (k : α → List REvent × Option String) :
    withStage t out k = (REvent.callStage t :: (k a).1, (k a).2) := by
  subst h; rfl

/-- A raising stage call records its invocation and propagates the raise. -/
theorem withStage_err {α : Type} (t : Nat) (out : Except String α) (e : String)
    (h : out = Except.error e) (k : α → List REvent × Option String) :
    withStage t out k = ([REvent.callStage t], some e) := by
  subst h; rfl

theorem fireError_none (b : Behaviour) (h : b.onError = none) (e : String) :
    fireError b e = ([], none) := by
  unfold fireError; rw [h]

theorem fireError_ok (b : Behaviour) (g : String → Except String Unit)
    (h : b.onError = some g) (he : ErrorOk b) (e : String) :
    fireError b e = ([REvent.errorCall e], none) := by
  unfold fireError; rw [h]; simp only [he g h]

theorem fireComplete_none (b : Behaviour) (h : b.onComplete = none)
    (r : ReconstructionResult) : fireComplete b r = ([], none) := by
  unfold fireComplete; rw [h]

theorem fireComplete_ok (b : Behaviour)
    (g : ReconstructionResult → Except String Unit)
    (h : b.onComplete = some g) (hc : CompleteOk b) (r : ReconstructionResult) :
    fireComplete b r = ([REvent.completeCall r], none) := by
  unfold fireComplete; rw [h]; simp only [hc g h]

/-- When the supplied `on_progress` never raises, the `except` handler
publishes `ERROR`, stores the failed result and fires `on_error`. -/
theorem exceptBlock_eq (b : Behaviour) (hp : ProgOk b) (p : Nat) (e : String) :
    exceptBlock b p e =
      (REvent.upd ColmapStage.ERROR p e ::
        REvent.setResult (failedResult e) :: (fireError b e).1,
       (fireError b e).2) := by
  unfold exceptBlock
  cases hf : b.onProgress with
  | none => rfl
  | some f => simp only [hp f hf]; rfl

theorem ProgOk_of_none (b : Behaviour) (h : b.onProgress = none) : ProgOk b := by
  intro f hf st p m; rw [h] at hf; cases hf

theorem ProgOk_of_const (b : Behaviour)
    (h : b.onProgress = some (fun _ _ _ => Except.ok ())) : ProgOk b := by
  intro f hf st p m; rw [h] at hf; cases hf; rfl

theorem CompleteOk_of_none (b : Behaviour) (h : b.onComplete = none) :
    CompleteOk b := by
  intro g hg r; rw [h] at hg; cases hg

theorem CompleteOk_of_const (b : Behaviour)
    (h : b.onComplete = some (fun _ => Except.ok ())) : CompleteOk b := by
  intro g hg r; rw [h] at hg; cases hg; rfl

theorem ErrorOk_of_none (b : Behaviour) (h : b.onError = none) : ErrorOk b := by
  intro g hg e; rw [h] at hg; cases hg

theorem ErrorOk_of_const (b : Behaviour)
    (h : b.onError = some (fun _ => Except.ok ())) : ErrorOk b := by
  intro g hg e; rw [h] at hg; cases hg; rfl

/-! ### Published update pairs and monotonicity machinery -/

theorem updPairs_upd (st : ColmapStage) (p : Nat) (m : String) (l : List REvent) :
    updPairs (REvent.upd st p m :: l) = (st, p) :: updPairs l := rfl

theorem updPairs_call (t : Nat) (l : List REvent) :
    updPairs (REvent.callStage t :: l) = updPairs l := rfl

theorem updPairs_set (r : ReconstructionResult) (l : List REvent) :
    updPairs (REvent.setResult r :: l) = updPairs l := rfl

theorem updPairs_completeCall (r : ReconstructionResult) (l : List REvent) :
    updPairs (REvent.completeCall r :: l) = updPairs l := rfl

theorem updPairs_errorCall (m : String) (l : List REvent) :
    updPairs (REvent.errorCall m :: l) = updPairs l := rfl

theorem updPairs_append (l1 l2 : List REvent) :
    updPairs (l1 ++ l2) = updPairs l1 ++ updPairs l2 :=
  List.filterMap_append l1 l2 _

theorem updPairs_fireError (b : Behaviour) (e : String) :
    updPairs (fireError b e).1 = [] := by
  unfold fireError
  cases b.onError with
  | none => rfl
  | some h =>
    dsimp only []
    cases h e <;> rfl

theorem updPairs_fireComplete (b : Behaviour) (r : ReconstructionResult) :
    updPairs (fireComplete b r).1 = [] := by
  unfold fireComplete
  cases b.onComplete with
  | none => rfl
  | some h =>
    dsimp only []
    cases h r <;> rfl

theorem stageRank_le_five (st : ColmapStage) : stageRank st ≤ 5 := by
  cases st <;> simp [stageRank]

/-- `_update` preserves the monotone-chain invariant of the published pairs:
its own pair must dominate the previous one, and the continuation's pairs must
form a chain starting no lower. -/
theorem chain_withUpd (b : Behaviour) (st : ColmapStage) (p : Nat) (m : String)
    (k : Unit → List REvent × Option String) (lo : ColmapStage × Nat)
    (hlo : pairLe lo (st, p))
    (hk : List.Chain' pairLe ((st, p) :: updPairs (k ()).1)) :
    List.Chain' pairLe (lo :: updPairs (withUpd b st p m k).1) := by
  unfold withUpd
  cases b.onProgress with
  | none => exact List.chain'_cons.2 ⟨hlo, hk⟩
  | some f =>
    dsimp only []
    cases f st p m with
    | ok u => exact List.chain'_cons.2 ⟨hlo, hk⟩
    | error e => exact List.chain'_cons.2 ⟨hlo, List.chain'_singleton _⟩

/-- A stage call publishes nothing, so it preserves the chain invariant. -/
theorem chain_withStage {α : Type} (t : Nat) (out : Except String α)
    (k : α → List REvent × Option String) (lo : ColmapStage × Nat)
    (hk : ∀ a, List.Chain' pairLe (lo :: updPairs (k a).1)) :
    List.Chain' pairLe (lo :: updPairs (withStage t out k).1) := by
  unfold withStage
  cases out with
  | error e => exact List.chain'_singleton _
  | ok a => exact hk a

/-- The pairs published by the `try` block form a monotone chain from the
initial `(IDLE, 0)` state, for every behaviour of the stage functions and
callbacks. -/
theorem chain_tryBody (b : Behaviour) (cfg : ColmapConfig) :
    List.Chain' pairLe ((ColmapStage.IDLE, 0) :: updPairs (tryBody b cfg).1) := by
  unfold tryBody
  apply chain_withUpd _ _ _ _ _ _ (by constructor <;> simp [stageRank])
  split
  · exact chain_withUpd _ _ _ _ _ _ (by constructor <;> simp [stageRank])
      (List.chain'_singleton _)
  apply chain_withStage
  intro a1
  apply chain_withUpd _ _ _ _ _ _ (by constructor <;> simp [stageRank])
  apply chain_withUpd _ _ _ _ _ _ (by constructor <;> simp [stageRank])
  split
  · exact chain_withUpd _ _ _ _ _ _ (by constructor <;> simp [stageRank])
      (List.chain'_singleton _)
  apply chain_withStage
  intro a2
  apply chain_withUpd _ _ _ _ _ _ (by constructor <;> simp [stageRank])
  apply chain_withUpd _ _ _ _ _ _ (by constructor <;> simp [stageRank])
  split
  · exact chain_withUpd _ _ _ _ _ _ (by constructor <;> simp [stageRank])
      (List.chain'_singleton _)
  apply chain_withStage
  intro result
  split
  · show List.Chain' pairLe ((ColmapStage.RECONSTRUCTING, 50) ::
      updPairs (withUpd b ColmapStage.ERROR 50 (pyOr result.error "Reconstruction failed")
        (fun _ => fireError b (excMsg result.error))).1)
    apply chain_withUpd _ _ _ _ _ _ (by constructor <;> simp [stageRank])
    rw [updPairs_fireError]
    exact List.chain'_singleton _
  apply chain_withUpd _ _ _ _ _ _ (by constructor <;> simp [stageRank])
  split
  · exact chain_withUpd _ _ _ _ _ _ (by constructor <;> simp [stageRank])
      (List.chain'_singleton _)
  apply chain_withStage
  intro a4
  show List.Chain' pairLe ((ColmapStage.UNDISTORTING, 75) ::
    updPairs (withUpd b ColmapStage.DONE 100 "Complete"
      (fun _ => fireComplete b { result with undistorted_path := some cfg.undistorted_path })).1)
  apply chain_withUpd _ _ _ _ _ _ (by constructor <;> simp [stageRank])
  rw [updPairs_fireComplete]
  exact List.chain'_singleton _

/-- The `except` handler publishes exactly one pair, `ERROR` at the progress
it found. -/
theorem updPairs_exceptBlock (b : Behaviour) (p : Nat) (e : String) :
    updPairs (exceptBlock b p e).1 = [(ColmapStage.ERROR, p)] := by
  unfold exceptBlock
  cases b.onProgress with
  | none => simp [consE, updPairs_upd, updPairs_set, updPairs_fireError]
  | some f =>
    dsimp only []
    cases f ColmapStage.ERROR p e with
    | ok u => simp [consE, updPairs_upd, updPairs_set, updPairs_fireError]
    | error e2 => rfl

/-- `lastProgress` is the last published progress (the seed when no update
was published). -/
theorem lastProgress_eq (evs : List REvent) : ∀ a : Nat,
    evs.foldl (fun acc e => match e with | REvent.upd _ p _ => p | _ => acc) a =
    ((updPairs evs).map Prod.snd).getLastD a := by
  induction evs with
  | nil => intro a; rfl
  | cons e rest ih =>
    intro a
    cases e with
    | upd st p m =>
      simp only [List.foldl_cons, updPairs_upd, List.map_cons, List.getLastD_cons]
      exact ih p
    | callStage t => exact ih a
    | setResult r => exact ih a
    | completeCall r => exact ih a
    | errorCall m => exact ih a

/-- Appending one pair whose progress is the chain's last progress and whose
stage is terminal keeps the chain monotone. -/
theorem chain_snoc (l : List (ColmapStage × Nat)) (lo x : ColmapStage × Nat)
    (h : List.Chain' pairLe (lo :: l))
    (hx2 : x.2 = (l.map Prod.snd).getLastD lo.2) (hx1 : stageRank x.1 = 5) :
    List.Chain' pairLe ((lo :: l) ++ [x]) := by
  induction l generalizing lo with
  | nil =>
    refine List.chain'_cons.2 ⟨⟨?_, ?_⟩, List.chain'_singleton _⟩
    · rw [hx1]; exact stageRank_le_five lo.1
    · simp only [List.map_nil, List.getLastD] at hx2; omega
  | cons a l ih =>
    obtain ⟨hla, hrest⟩ := List.chain'_cons.1 h
    have h2 : x.2 = (l.map Prod.snd).getLastD a.2 := by
      simpa only [List.map_cons, List.getLastD_cons] using hx2
    exact List.chain'_cons.2 ⟨hla, ih a hrest h2⟩

/-- The pairs published by a whole run — handler included — form a monotone
chain from `(IDLE, 0)`. -/
theorem chain_runJob (b : Behaviour) (cfg : ColmapConfig) :
    List.Chain' pairLe ((ColmapStage.IDLE, 0) :: updPairs (runJob b cfg).1) := by
  unfold runJob
  cases htb : tryBody b cfg with
  | mk evs exc =>
    cases exc with
    | none =>
      have h := chain_tryBody b cfg
      rw [htb] at h
      exact h
    | some e =>
      have h := chain_tryBody b cfg
      rw [htb] at h
      rw [updPairs_append, updPairs_exceptBlock]
      show List.Chain' pairLe
        (((ColmapStage.IDLE, 0) :: updPairs evs) ++ [(ColmapStage.ERROR, lastProgress evs)])
      exact chain_snoc (updPairs evs) (ColmapStage.IDLE, 0)
        (ColmapStage.ERROR, lastProgress evs) h (lastProgress_eq evs 0) rfl

/-! ### Result-visibility machinery -/

theorem eventsOK_append_all (l2 : List REvent) (hall : ∀ d g, eventsOK d g l2) :
    ∀ (l1 : List REvent) (d g : Bool), eventsOK d g l1 → eventsOK d g (l1 ++ l2) := by
  intro l1
  induction l1 with
  | nil => intro d g _; exact hall d g
  | cons e rest ih =>
    intro d g h
    cases e with
    | upd st p m => exact ⟨h.1, ih _ _ h.2⟩
    | setResult r => exact ⟨h.1, ih _ _ h.2⟩
    | callStage t => exact ih _ _ h
    | completeCall r => exact ih _ _ h
    | errorCall m => exact ih _ _ h

theorem fireError_eventsOK (b : Behaviour) (e : String) (d g : Bool) :
    eventsOK d g (fireError b e).1 := by
  unfold fireError
  cases b.onError with
  | none => exact True.intro
  | some h =>
    dsimp only []
    cases h e <;> exact True.intro

theorem fireComplete_eventsOK (b : Behaviour) (r : ReconstructionResult) (d g : Bool) :
    eventsOK d g (fireComplete b r).1 := by
  unfold fireComplete
  cases b.onComplete with
  | none => exact True.intro
  | some h =>
    dsimp only []
    cases h r <;> exact True.intro

theorem exceptBlock_eventsOK (b : Behaviour) (p : Nat) (e : String) :
    ∀ d g : Bool, eventsOK d g (exceptBlock b p e).1 := by
  intro d g
  unfold exceptBlock
  cases b.onProgress with
  | none =>
    exact ⟨fun h => ColmapStage.noConfusion h,
      fun h => Bool.noConfusion h, fireError_eventsOK b e _ _⟩
  | some f =>
    dsimp only []
    cases f ColmapStage.ERROR p e with
    | ok u =>
      exact ⟨fun h => ColmapStage.noConfusion h,
        fun h => Bool.noConfusion h, fireError_eventsOK b e _ _⟩
    | error e2 =>
      exact ⟨fun h => ColmapStage.noConfusion h, True.intro⟩

theorem eventsOK_withUpd_ne (b : Behaviour) (st : ColmapStage) (p : Nat) (m : String)
    (k : Unit → List REvent × Option String) (d g : Bool)
    (hst : st ≠ ColmapStage.DONE)
    (hk : eventsOK false g (k ()).1) :
    eventsOK d g (withUpd b st p m k).1 := by
  unfold withUpd
  have hd : decide (st = ColmapStage.DONE) = false := decide_eq_false hst
  cases b.onProgress with
  | none => exact ⟨fun h => absurd h hst, by rw [hd]; exact hk⟩
  | some f =>
    dsimp only []
    cases f st p m with
    | ok u => exact ⟨fun h => absurd h hst, by rw [hd]; exact hk⟩
    | error e => exact ⟨fun h => absurd h hst, by rw [hd]; exact True.intro⟩

theorem eventsOK_withUpd_done (b : Behaviour) (p : Nat) (m : String)
    (k : Unit → List REvent × Option String) (d g : Bool)
    (hg : g = true)
    (hk : eventsOK true g (k ()).1) :
    eventsOK d g (withUpd b ColmapStage.DONE p m k).1 := by
  unfold withUpd
  have hd : decide (ColmapStage.DONE = ColmapStage.DONE) = true := by simp
  cases b.onProgress with
  | none => exact ⟨fun _ => hg, by rw [hd]; exact hk⟩
  | some f =>
    dsimp only []
    cases f ColmapStage.DONE p m with
    | ok u => exact ⟨fun _ => hg, by rw [hd]; exact hk⟩
    | error e => exact ⟨fun _ => hg, by rw [hd]; exact True.intro⟩

theorem eventsOK_withStage {α : Type} (t : Nat) (out : Except String α)
    (k : α → List REvent × Option String) (d g : Bool)
    (hk : ∀ a, eventsOK d g (k a).1) :
    eventsOK d g (withStage t out k).1 := by
  unfold withStage
  cases out with
  | error e => exact True.intro
  | ok a => exact hk a

/-- The `try` block satisfies the result-visibility invariant for every
behaviour: the one `DONE` update it can publish is preceded by the store of a
successful result. -/
theorem tryBody_eventsOK (b : Behaviour) (cfg : ColmapConfig) :
    eventsOK false false (tryBody b cfg).1 := by
  unfold tryBody
  apply eventsOK_withUpd_ne _ _ _ _ _ _ _ (by simp)
  split
  · exact eventsOK_withUpd_ne _ _ _ _ _ _ _ (by simp) True.intro
  apply eventsOK_withStage
  intro a1
  apply eventsOK_withUpd_ne _ _ _ _ _ _ _ (by simp)
  apply eventsOK_withUpd_ne _ _ _ _ _ _ _ (by simp)
  split
  · exact eventsOK_withUpd_ne _ _ _ _ _ _ _ (by simp) True.intro
  apply eventsOK_withStage
  intro a2
  apply eventsOK_withUpd_ne _ _ _ _ _ _ _ (by simp)
  apply eventsOK_withUpd_ne _ _ _ _ _ _ _ (by simp)
  split
  · exact eventsOK_withUpd_ne _ _ _ _ _ _ _ (by simp) True.intro
  apply eventsOK_withStage
  intro result
  split
  · exact ⟨fun h => Bool.noConfusion h,
      eventsOK_withUpd_ne _ _ _ _ _ _ _ (by simp) (fireError_eventsOK b _ _ _)⟩
  · rename_i hns
    have hs : result.success = true := by
      cases hcs : result.success with
      | true => rfl
      | false => exact absurd hcs hns
    apply eventsOK_withUpd_ne _ _ _ _ _ _ _ (by simp)
    split
    · exact eventsOK_withUpd_ne _ _ _ _ _ _ _ (by simp) True.intro
    apply eventsOK_withStage
    intro a4
    exact ⟨fun h => Bool.noConfusion h,
      eventsOK_withUpd_done _ _ _ _ _ _ hs (fireComplete_eventsOK b _ _ _)⟩

theorem runJob_eventsOK (b : Behaviour) (cfg : ColmapConfig) :
    eventsOK false false (runJob b cfg).1 := by
  unfold runJob
  cases htb : tryBody b cfg with
  | mk evs exc =>
    cases exc with
    | none =>
      have h := tryBody_eventsOK b cfg
      rw [htb] at h
      exact h
    | some e =>
      have h := tryBody_eventsOK b cfg
      rw [htb] at h
      exact eventsOK_append_all _ (exceptBlock_eventsOK b (lastProgress evs) e)
        evs false false h

/-- The invariant transported to every reader-observable snapshot. -/
theorem eventsOK_snapshots_inv (evs : List REvent) :
    ∀ s0 : JobState,
      eventsOK (decide (s0.stage = ColmapStage.DONE)) (stateGood s0) evs →
      (s0.stage = ColmapStage.DONE → ∃ r, s0.result = some r ∧ r.success = true) →
      ∀ s ∈ List.scanl applyEvent s0 evs,
        s.stage = ColmapStage.DONE → ∃ r, s.result = some r ∧ r.success = true := by
  induction evs with
  | nil =>
    intro s0 _ h0 s hs
    rw [List.scanl_nil, List.mem_singleton] at hs
    subst hs
    exact h0
  | cons e rest ih =>
    intro s0 hok h0 s hs
    rw [List.scanl_cons, List.singleton_append, List.mem_cons] at hs
    rcases hs with rfl | hs
    · exact h0
    cases e with
    | upd st p m =>
      obtain ⟨himp, hrest⟩ := hok
      refine ih (applyEvent s0 (REvent.upd st p m)) ?_ ?_ s hs
      · exact hrest
      · intro hd
        have hg : stateGood s0 = true := himp hd
        unfold stateGood at hg
        cases hr : s0.result with
        | none => rw [hr] at hg; cases hg
        | some r =>
          rw [hr] at hg
          exact ⟨r, hr, hg⟩
    | setResult r =>
      obtain ⟨himp, hrest⟩ := hok
      refine ih (applyEvent s0 (REvent.setResult r)) ?_ ?_ s hs
      · exact hrest
      · intro hd
        exact ⟨r, rfl, himp (by simpa using hd)⟩
    | callStage t => exact ih _ hok h0 s hs
    | completeCall r => exact ih _ hok h0 s hs
    | errorCall m => exact ih _ hok h0 s hs

theorem foldl_mem_scanl {α β : Type} (f : α → β → α) (l : List β) :
    ∀ a : α, List.foldl f a l ∈ List.scanl f a l := by
  induction l with
  | nil => intro a; simp
  | cons e rest ih =>
    intro a
    rw [List.foldl_cons, List.scanl_cons, List.singleton_append]
    exact List.mem_cons_of_mem _ (ih (f a e))

theorem finalState_mem_snapshots (evs : List REvent) :
    finalState evs ∈ snapshots evs :=
  foldl_mem_scanl applyEvent evs {}

/-! ### Feature-extraction machinery -/

theorem extract_features_eq (names : List String) (d : String) :
    extract_features names d =
      if (imageGlobs.foldr (fun e acc => globMatch e names ++ acc) []).isEmpty then
        Except.error ("No images found in " ++ d)
      else
        Except.ok (imageGlobs.foldr (fun e acc => globMatch e names ++ acc) []).length := rfl

/-- The concatenated glob results are empty exactly when no listed name
matches any of the patterns. -/
theorem foldr_glob_nil_iff (exts : List String) (names : List String) :
    (exts.foldr (fun e acc => globMatch e names ++ acc) [] = []) ↔
    ∀ n ∈ names, (exts.any fun e => ("." ++ e).data.isSuffixOf n.data) = false := by
  induction exts with
  | nil => simp
  | cons e rest ih =>
    rw [List.foldr_cons, List.append_eq_nil]
    constructor
    · rintro ⟨h1, h2⟩ n hn
      have hf := List.filter_eq_nil_iff.1 h1 n hn
      have hr := ih.1 h2 n hn
      simp only [List.any_cons, Bool.or_eq_false_iff]
      exact ⟨Bool.eq_false_iff.2 (by simpa using hf), hr⟩
    · intro h
      constructor
      · refine List.filter_eq_nil_iff.2 ?_
        intro n hn
        have hthis := h n hn
        simp only [List.any_cons, Bool.or_eq_false_iff] at hthis
        intro hx
        rw [hthis.1] at hx
        cases hx
      · refine ih.2 ?_
        intro n hn
        have := h n hn
        simp only [List.any_cons, Bool.or_eq_false_iff] at this
        exact this.2

/-! ### Claim theorems -/

/-- C2: the derived-path accessors are pure, stable functions of the output
directory — the database file path is the output dir joined with the fixed
filename `database.db`, the sparse-model directory is the output dir joined
with `sparse`, and the undistorted-output directory is the output dir joined
with `undistorted`; any two configurations with the same output directory
yield identical derived paths (stability: the accessors depend on nothing
else). -/
theorem claim_C2_derived_paths (c c2 : ColmapConfig)
    (h : c.output_path = c2.output_path) :
    c.database_path = c.output_path ++ ["database.db"] ∧
    c.sparse_path = c.output_path ++ ["sparse"] ∧
    c.undistorted_path = c.output_path ++ ["undistorted"] ∧
    c.database_path = c2.database_path ∧
    c.sparse_path = c2.sparse_path ∧
    c.undistorted_path = c2.undistorted_path := by
  unfold ColmapConfig.database_path ColmapConfig.sparse_path ColmapConfig.undistorted_path
  exact ⟨rfl, rfl, rfl, by rw [h], by rw [h], by rw [h]⟩

/-- Witness for C2 at two concrete configurations sharing an output
directory. -/
theorem claim_C2_witness :
    cfgW.output_path = cfgW2.output_path ∧
    (cfgW.database_path = cfgW.output_path ++ ["database.db"] ∧
     cfgW.sparse_path = cfgW.output_path ++ ["sparse"] ∧
     cfgW.undistorted_path = cfgW.output_path ++ ["undistorted"] ∧
     cfgW.database_path = cfgW2.database_path ∧
     cfgW.sparse_path = cfgW2.sparse_path ∧
     cfgW.undistorted_path = cfgW2.undistorted_path) :=
  ⟨rfl, claim_C2_derived_paths cfgW cfgW2 rfl⟩

/-- C10: the synchronous `run_pipeline` never propagates an exception (its
embedding is total); every exception raised by extraction, matching or
reconstruction is converted into a returned result with `success = false` and
`error` equal to the exception's message; when no exception is raised it
returns exactly the result produced by `reconstruct`; and the undistortion
stage (tag 3) is never invoked on this path. -/
theorem claim_C10_run_pipeline (be bm : Except String Nat)
    (br : Except String ReconstructionResult) :
    (∀ e, (pipelineBody be bm br).2 = Except.error e →
      (run_pipeline be bm br).2 = { success := false, error := some e }) ∧
    (∀ r, (pipelineBody be bm br).2 = Except.ok r →
      br = Except.ok r ∧ (run_pipeline be bm br).2 = r) ∧
    (3 : Nat) ∉ (run_pipeline be bm br).1 := by
  rcases be with e1 | n1 <;> rcases bm with e2 | n2 <;> rcases br with e3 | r3 <;>
    simp [run_pipeline, pipelineBody]

/-- Witness for C10: a raising extraction stage yields the failed result and
undistortion is not invoked. -/
theorem claim_C10_witness :
    (run_pipeline (Except.error "x") (Except.ok 0) (Except.ok rW)).2 =
      { success := false, error := some "x" } ∧
    (3 : Nat) ∉ (run_pipeline (Except.error "x") (Except.ok 0) (Except.ok rW)).1 :=
  ⟨(claim_C10_run_pipeline (Except.error "x") (Except.ok 0) (Except.ok rW)).1 "x" rfl,
   (claim_C10_run_pipeline (Except.error "x") (Except.ok 0) (Except.ok rW)).2.2⟩

/-- C7 (amended): `extract_features` raises the no-images error exactly when
no file in the directory listing matches one of the six case-sensitive
patterns `*.jpg`, `*.JPG`, `*.jpeg`, `*.JPEG`, `*.png`, `*.PNG`; any file
matching one of those six exact spellings prevents the error.  (The original
claim's case-insensitive reading fails: a mixed-case extension such as
`.Jpg` matches none of the six patterns, see the counterexample.) -/
theorem claim_C7_no_images_iff (names : List String) (d : String) :
    (extract_features names d = Except.error ("No images found in " ++ d) ↔
      ∀ n ∈ names, sourceAcceptedImage n = false) ∧
    ((∃ n ∈ names, sourceAcceptedImage n = true) →
      ∃ k, extract_features names d = Except.ok k) := by
  have hiff := foldr_glob_nil_iff imageGlobs names
  rw [extract_features_eq]
  by_cases hemp : (imageGlobs.foldr (fun e acc => globMatch e names ++ acc) []) = []
  · rw [hemp]
    simp only [List.isEmpty_nil, if_true]
    constructor
    · constructor
      · intro _ n hn
        exact hiff.1 hemp n hn
      · intro _
        trivial
    · rintro ⟨n, hn, hacc⟩
      have hfalse := hiff.1 hemp n hn
      rw [show sourceAcceptedImage n =
        (imageGlobs.any fun e => ("." ++ e).data.isSuffixOf n.data) from rfl] at hacc
      rw [hfalse] at hacc
      cases hacc
  · have hne : (imageGlobs.foldr (fun e acc => globMatch e names ++ acc) []).isEmpty = false := by
      simp [List.isEmpty_iff, hemp]
    rw [hne]
    simp only [Bool.false_eq_true, if_false]
    constructor
    · constructor
      · intro h
        cases h
      · intro hall
        exact absurd (hiff.2 fun n hn => hall n hn) hemp
    · intro _
      exact ⟨_, rfl⟩

/-- Witness for C7 (amended): a lowercase `.jpg` file prevents the error. -/
theorem claim_C7_witness :
    (∃ n ∈ ["a.jpg"], sourceAcceptedImage n = true) ∧
    (∃ k, extract_features ["a.jpg"] "imgs" = Except.ok k) :=
  ⟨by decide, (claim_C7_no_images_iff ["a.jpg"] "imgs").2 (by decide)⟩

/-- Counterexample for C7 as stated: `a.Jpg` has extension `jpg` under
case-insensitive comparison (the claim's criterion), yet `extract_features`
still raises the no-images error, because the mixed-case spelling matches
none of the six globbed patterns. -/
theorem claim_C7_counterexample :
    specAcceptedImage "a.Jpg" = true ∧
    extract_features ["a.Jpg"] "imgs" = Except.error "No images found in imgs" :=
  ⟨by decide, rfl⟩

/-- C4: for every run in which a stage function raises an exception with
message `e` (and the user-supplied callbacks, including the registered error
callback, return normally), the job ends with the published stage `Error`,
the stored result is the failed result with `success = false` and `error`
equal to the exception's message, the error callback is invoked exactly once
and with that exception, the completion callback never fires, and no
exception escapes the worker. -/
theorem claim_C4_stage_exception (b : Behaviour) (cfg : ColmapConfig) (e : String)
    (g : String → Except String Unit)
    (hp : ProgOk b) (he : ErrorOk b) (hg : b.onError = some g)
    (hra : raisesAt b e) :
    (finalState (runJob b cfg).1).stage = ColmapStage.ERROR ∧
    (finalState (runJob b cfg).1).result = some (failedResult e) ∧
    countErrorWith e (runJob b cfg).1 = 1 ∧
    countError (runJob b cfg).1 = 1 ∧
    countComplete (runJob b cfg).1 = 0 ∧
    (runJob b cfg).2 = none := by
  rcases hra with ⟨h0, hx⟩ |
    ⟨h0, ⟨n1, hxn⟩, h1, hm⟩ |
    ⟨h0, ⟨n1, hxn⟩, h1, ⟨n2, hmn⟩, h2, hr⟩ |
    ⟨h0, ⟨n1, hxn⟩, h1, ⟨n2, hmn⟩, h2, ⟨r, hrr, hrs⟩, h3, hu⟩
  · simp only [runJob, tryBody, withUpd_eq b hp, h0, Bool.false_eq_true, if_false,
      withStage_err 0 b.extractOut e hx]
    simp only [exceptBlock_eq b hp, fireError_ok b g hg he, lastProgress,
      List.foldl_cons, List.foldl_nil]
    simp [finalState, applyEvent, countErrorWith, countError, countComplete,
      List.countP_cons, List.countP_nil]
  · simp only [runJob, tryBody, withUpd_eq b hp, h0, h1, Bool.false_eq_true, if_false,
      withStage_ok 0 b.extractOut n1 hxn, withStage_err 1 b.matchOut e hm]
    simp only [exceptBlock_eq b hp, fireError_ok b g hg he, lastProgress,
      List.foldl_cons, List.foldl_nil]
    simp [finalState, applyEvent, countErrorWith, countError, countComplete,
      List.countP_cons, List.countP_nil]
  · simp only [runJob, tryBody, withUpd_eq b hp, h0, h1, h2, Bool.false_eq_true, if_false,
      withStage_ok 0 b.extractOut n1 hxn, withStage_ok 1 b.matchOut n2 hmn,
      withStage_err 2 b.reconstructOut e hr]
    simp only [exceptBlock_eq b hp, fireError_ok b g hg he, lastProgress,
      List.foldl_cons, List.foldl_nil]
    simp [finalState, applyEvent, countErrorWith, countError, countComplete,
      List.countP_cons, List.countP_nil]
  · simp only [runJob, tryBody, withUpd_eq b hp, h0, h1, h2, h3, Bool.false_eq_true, if_false,
      withStage_ok 0 b.extractOut n1 hxn, withStage_ok 1 b.matchOut n2 hmn,
      withStage_ok 2 b.reconstructOut r hrr, hrs, Bool.true_eq_false,
      withStage_err 3 b.undistortOut e hu]
    simp only [exceptBlock_eq b hp, fireError_ok b g hg he, lastProgress,
      List.foldl_cons, List.foldl_nil]
    simp [finalState, applyEvent, countErrorWith, countError, countComplete,
      List.countP_cons, List.countP_nil]

/-- Witness for C4: the extraction stage raises `boom` with a well-behaved
error callback registered. -/
theorem claim_C4_witness :
    raisesAt bExtractRaises "boom" ∧
    ((finalState (runJob bExtractRaises cfgW).1).stage = ColmapStage.ERROR ∧
     (finalState (runJob bExtractRaises cfgW).1).result = some (failedResult "boom") ∧
     countErrorWith "boom" (runJob bExtractRaises cfgW).1 = 1 ∧
     countError (runJob bExtractRaises cfgW).1 = 1 ∧
     countComplete (runJob bExtractRaises cfgW).1 = 0 ∧
     (runJob bExtractRaises cfgW).2 = none) :=
  ⟨Or.inl ⟨rfl, rfl⟩,
   claim_C4_stage_exception bExtractRaises cfgW "boom" (fun _ => Except.ok ())
     (ProgOk_of_none bExtractRaises rfl) (ErrorOk_of_const bExtractRaises rfl) rfl
     (Or.inl ⟨rfl, rfl⟩)⟩

/-- C6: when the cancellation flag reads true at the `k`-th stage boundary
(`k ≤ 3`) of a run that reaches that boundary (and the supplied progress
callback returns normally), the worker publishes `Cancelled` at the progress
accumulated so far (`25·k`), finishes in the `Cancelled` state at that
progress, invokes no stage function from the `k`-th on, fires neither the
completion nor the error callback, and returns without an escaping
exception.  In particular (`k = 0`) cancellation before the first boundary
reaches `Cancelled` at progress 0 with the extraction function never
called. -/
theorem claim_C6_cancellation (b : Behaviour) (cfg : ColmapConfig) (k : Nat)
    (hp : ProgOk b) (hk : k ≤ 3) (hreach : reachesCheck b k)
    (hc : b.cancelRead k = true) :
    (ColmapStage.CANCELLED, 25 * k) ∈ updPairs (runJob b cfg).1 ∧
    (finalState (runJob b cfg).1).stage = ColmapStage.CANCELLED ∧
    (finalState (runJob b cfg).1).progress = 25 * k ∧
    (∀ t, k ≤ t → countCall t (runJob b cfg).1 = 0) ∧
    countComplete (runJob b cfg).1 = 0 ∧
    countError (runJob b cfg).1 = 0 ∧
    (runJob b cfg).2 = none := by
  interval_cases k
  · simp only [runJob, tryBody, withUpd_eq b hp, hc, if_true]
    refine ⟨by simp [updPairs], by simp [finalState, applyEvent],
      by simp [finalState, applyEvent], ?_,
      by simp [countComplete, List.countP_cons, List.countP_nil],
      by simp [countError, List.countP_cons, List.countP_nil], trivial⟩
    intro t ht
    simp [countCall, List.countP_cons, List.countP_nil]
  · simp only [reachesCheck] at hreach
    obtain ⟨h0, n1, hxn⟩ := hreach
    simp only [runJob, tryBody, withUpd_eq b hp, h0, hc, Bool.false_eq_true, if_false, if_true,
      withStage_ok 0 b.extractOut n1 hxn]
    refine ⟨by simp [updPairs], by simp [finalState, applyEvent],
      by simp [finalState, applyEvent], ?_,
      by simp [countComplete, List.countP_cons, List.countP_nil],
      by simp [countError, List.countP_cons, List.countP_nil], trivial⟩
    intro t ht
    have h0t : ¬((0 : Nat) = t) := by omega
    simp [countCall, List.countP_cons, List.countP_nil, h0t]
  · simp only [reachesCheck] at hreach
    obtain ⟨⟨h0, n1, hxn⟩, h1, n2, hmn⟩ := hreach
    simp only [runJob, tryBody, withUpd_eq b hp, h0, h1, hc, Bool.false_eq_true, if_false,
      if_true, withStage_ok 0 b.extractOut n1 hxn, withStage_ok 1 b.matchOut n2 hmn]
    refine ⟨by simp [updPairs], by simp [finalState, applyEvent],
      by simp [finalState, applyEvent], ?_,
      by simp [countComplete, List.countP_cons, List.countP_nil],
      by simp [countError, List.countP_cons, List.countP_nil], trivial⟩
    intro t ht
    have h0t : ¬((0 : Nat) = t) := by omega
    have h1t : ¬((1 : Nat) = t) := by omega
    simp [countCall, List.countP_cons, List.countP_nil, h0t, h1t]
  · simp only [reachesCheck] at hreach
    obtain ⟨⟨⟨h0, n1, hxn⟩, h1, n2, hmn⟩, h2, r, hrr, hrs⟩ := hreach
    simp only [runJob, tryBody, withUpd_eq b hp, h0, h1, h2, hc, Bool.false_eq_true, if_false,
      if_true, withStage_ok 0 b.extractOut n1 hxn, withStage_ok 1 b.matchOut n2 hmn,
      withStage_ok 2 b.reconstructOut r hrr, hrs, Bool.true_eq_false]
    refine ⟨by simp [updPairs], by simp [finalState, applyEvent],
      by simp [finalState, applyEvent], ?_,
      by simp [countComplete, List.countP_cons, List.countP_nil],
      by simp [countError, List.countP_cons, List.countP_nil], trivial⟩
    intro t ht
    have h0t : ¬((0 : Nat) = t) := by omega
    have h1t : ¬((1 : Nat) = t) := by omega
    have h2t : ¬((2 : Nat) = t) := by omega
    simp [countCall, List.countP_cons, List.countP_nil, h0t, h1t, h2t]

/-- Witness for C6 at the first boundary: `cancel()` before the worker's
first check reaches `Cancelled` at progress 0 and the extraction function is
never invoked. -/
theorem claim_C6_witness :
    bCancelled.cancelRead 0 = true ∧
    ((ColmapStage.CANCELLED, 25 * 0) ∈ updPairs (runJob bCancelled cfgW).1 ∧
     (finalState (runJob bCancelled cfgW).1).stage = ColmapStage.CANCELLED ∧
     (finalState (runJob bCancelled cfgW).1).progress = 25 * 0 ∧
     (∀ t, 0 ≤ t → countCall t (runJob bCancelled cfgW).1 = 0) ∧
     countComplete (runJob bCancelled cfgW).1 = 0 ∧
     countError (runJob bCancelled cfgW).1 = 0 ∧
     (runJob bCancelled cfgW).2 = none) :=
  ⟨rfl, claim_C6_cancellation bCancelled cfgW 0
    (ProgOk_of_none bCancelled rfl) (by omega) (by unfold reachesCheck; trivial) rfl⟩

/-- C5: when the reconstruction stage produces an empty candidate set, the
source `reconstruct` returns — without raising — the failed result with
message "No valid reconstructions found", and the orchestrator treats this
structural failure like a raised exception: the job ends in the `Error`
stage, the stored result is that failed result, the registered error callback
fires exactly once (with that message), the completion callback never fires,
and the undistortion stage is never invoked. -/
theorem claim_C5_structural_failure (b : Behaviour) (cfg : ColmapConfig)
    (g : String → Except String Unit)
    (hp : ProgOk b) (he : ErrorOk b) (hg : b.onError = some g)
    (h0 : b.cancelRead 0 = false) (h1 : b.cancelRead 1 = false)
    (h2 : b.cancelRead 2 = false)
    (hx : ∃ n, b.extractOut = Except.ok n) (hm : ∃ n, b.matchOut = Except.ok n)
    (hr : b.reconstructOut = Except.ok (reconstruct cfg [])) :
    reconstruct cfg [] =
      { success := false, error := some "No valid reconstructions found" } ∧
    (finalState (runJob b cfg).1).stage = ColmapStage.ERROR ∧
    (finalState (runJob b cfg).1).result = some (reconstruct cfg []) ∧
    countError (runJob b cfg).1 = 1 ∧
    countErrorWith "No valid reconstructions found" (runJob b cfg).1 = 1 ∧
    countComplete (runJob b cfg).1 = 0 ∧
    countCall 3 (runJob b cfg).1 = 0 ∧
    (runJob b cfg).2 = none := by
  obtain ⟨n1, hxn⟩ := hx; obtain ⟨n2, hmn⟩ := hm
  simp only [runJob, tryBody, withUpd_eq b hp, h0, h1, h2, Bool.false_eq_true, if_false,
    withStage_ok 2 b.reconstructOut (reconstruct cfg []) hr,
    withStage_ok 0 b.extractOut n1 hxn, withStage_ok 1 b.matchOut n2 hmn,
    reconstruct, consE, pyOr, excMsg, fireError_ok b g hg he]
  simp [finalState, applyEvent, countError, countErrorWith, countComplete, countCall,
    List.countP_cons, List.countP_nil, reconstruct]

/-- Witness for C5: concrete run whose reconstruction stage returns the
empty-candidate failure. -/
theorem claim_C5_witness :
    bNoRecon.reconstructOut = Except.ok (reconstruct cfgW []) ∧
    (reconstruct cfgW [] =
      { success := false, error := some "No valid reconstructions found" } ∧
     (finalState (runJob bNoRecon cfgW).1).stage = ColmapStage.ERROR ∧
     (finalState (runJob bNoRecon cfgW).1).result = some (reconstruct cfgW []) ∧
     countError (runJob bNoRecon cfgW).1 = 1 ∧
     countErrorWith "No valid reconstructions found" (runJob bNoRecon cfgW).1 = 1 ∧
     countComplete (runJob bNoRecon cfgW).1 = 0 ∧
     countCall 3 (runJob bNoRecon cfgW).1 = 0 ∧
     (runJob bNoRecon cfgW).2 = none) :=
  ⟨rfl, claim_C5_structural_failure bNoRecon cfgW (fun _ => Except.ok ())
    (ProgOk_of_none bNoRecon rfl) (ErrorOk_of_const bNoRecon rfl) rfl rfl rfl rfl
    ⟨3, rfl⟩ ⟨5, rfl⟩ rfl⟩

/-- C1 (amended): when all three user callbacks are supplied and return
normally, every run ends in exactly one of three ways — the run terminates in
`Done` and the completion callback fires exactly once with the final stored
result (a successful one) while the error callback never fires; or the run
terminates in `Error` and the error callback fires exactly once while the
completion callback never fires; or the run terminates in `Cancelled` and
neither callback fires.  (The original claim quantified over every behaviour
of the user callbacks; it fails when `on_complete` itself raises, see the
counterexample, which makes both callbacks fire in one run.) -/
theorem claim_C1_exactly_one_callback (b : Behaviour) (cfg : ColmapConfig)
    (f : ColmapStage → Nat → String → Except String Unit)
    (g : ReconstructionResult → Except String Unit)
    (h : String → Except String Unit)
    (hpf : b.onProgress = some f) (hcg : b.onComplete = some g)
    (heh : b.onError = some h)
    (hp : ProgOk b) (hc : CompleteOk b) (he : ErrorOk b) :
    ((finalState (runJob b cfg).1).stage = ColmapStage.DONE ∧
      (∃ r, (finalState (runJob b cfg).1).result = some r ∧ r.success = true ∧
        REvent.completeCall r ∈ (runJob b cfg).1) ∧
      countComplete (runJob b cfg).1 = 1 ∧ countError (runJob b cfg).1 = 0) ∨
    ((finalState (runJob b cfg).1).stage = ColmapStage.ERROR ∧
      countError (runJob b cfg).1 = 1 ∧ countComplete (runJob b cfg).1 = 0) ∨
    ((finalState (runJob b cfg).1).stage = ColmapStage.CANCELLED ∧
      countComplete (runJob b cfg).1 = 0 ∧ countError (runJob b cfg).1 = 0) := by
  cases h0 : b.cancelRead 0 with
  | true =>
    refine Or.inr (Or.inr ?_)
    simp only [runJob, tryBody, withUpd_eq b hp, h0, if_true]
    simp [finalState, applyEvent, countComplete, countError, List.countP_cons,
      List.countP_nil]
  | false =>
  cases hx : b.extractOut with
  | error e =>
    refine Or.inr (Or.inl ?_)
    simp only [runJob, tryBody, withUpd_eq b hp, h0, Bool.false_eq_true, if_false,
      withStage_err 0 b.extractOut e hx]
    simp only [exceptBlock_eq b hp, fireError_ok b h heh he, lastProgress,
      List.foldl_cons, List.foldl_nil]
    simp [finalState, applyEvent, countComplete, countError, List.countP_cons,
      List.countP_nil]
  | ok n1 =>
  cases h1 : b.cancelRead 1 with
  | true =>
    refine Or.inr (Or.inr ?_)
    simp only [runJob, tryBody, withUpd_eq b hp, h0, h1, Bool.false_eq_true, if_false,
      if_true, withStage_ok 0 b.extractOut n1 hx]
    simp [finalState, applyEvent, countComplete, countError, List.countP_cons,
      List.countP_nil]
  | false =>
  cases hm : b.matchOut with
  | error e =>
    refine Or.inr (Or.inl ?_)
    simp only [runJob, tryBody, withUpd_eq b hp, h0, h1, Bool.false_eq_true, if_false,
      withStage_ok 0 b.extractOut n1 hx, withStage_err 1 b.matchOut e hm]
    simp only [exceptBlock_eq b hp, fireError_ok b h heh he, lastProgress,
      List.foldl_cons, List.foldl_nil]
    simp [finalState, applyEvent, countComplete, countError, List.countP_cons,
      List.countP_nil]
  | ok n2 =>
  cases h2 : b.cancelRead 2 with
  | true =>
    refine Or.inr (Or.inr ?_)
    simp only [runJob, tryBody, withUpd_eq b hp, h0, h1, h2, Bool.false_eq_true, if_false,
      if_true, withStage_ok 0 b.extractOut n1 hx, withStage_ok 1 b.matchOut n2 hm]
    simp [finalState, applyEvent, countComplete, countError, List.countP_cons,
      List.countP_nil]
  | false =>
  cases hr : b.reconstructOut with
  | error e =>
    refine Or.inr (Or.inl ?_)
    simp only [runJob, tryBody, withUpd_eq b hp, h0, h1, h2, Bool.false_eq_true, if_false,
      withStage_ok 0 b.extractOut n1 hx, withStage_ok 1 b.matchOut n2 hm,
      withStage_err 2 b.reconstructOut e hr]
    simp only [exceptBlock_eq b hp, fireError_ok b h heh he, lastProgress,
      List.foldl_cons, List.foldl_nil]
    simp [finalState, applyEvent, countComplete, countError, List.countP_cons,
      List.countP_nil]
  | ok r =>
  cases hrs : r.success with
  | false =>
    refine Or.inr (Or.inl ?_)
    simp only [runJob, tryBody, withUpd_eq b hp, h0, h1, h2, Bool.false_eq_true, if_false,
      withStage_ok 0 b.extractOut n1 hx, withStage_ok 1 b.matchOut n2 hm,
      withStage_ok 2 b.reconstructOut r hr, hrs, if_true, consE,
      fireError_ok b h heh he]
    simp [finalState, applyEvent, countComplete, countError, List.countP_cons,
      List.countP_nil]
  | true =>
  cases h3 : b.cancelRead 3 with
  | true =>
    refine Or.inr (Or.inr ?_)
    simp only [runJob, tryBody, withUpd_eq b hp, h0, h1, h2, h3, Bool.false_eq_true,
      if_false, if_true, withStage_ok 0 b.extractOut n1 hx,
      withStage_ok 1 b.matchOut n2 hm, withStage_ok 2 b.reconstructOut r hr, hrs,
      Bool.true_eq_false]
    simp [finalState, applyEvent, countComplete, countError, List.countP_cons,
      List.countP_nil]
  | false =>
  cases hu : b.undistortOut with
  | error e =>
    refine Or.inr (Or.inl ?_)
    simp only [runJob, tryBody, withUpd_eq b hp, h0, h1, h2, h3, Bool.false_eq_true,
      if_false, withStage_ok 0 b.extractOut n1 hx, withStage_ok 1 b.matchOut n2 hm,
      withStage_ok 2 b.reconstructOut r hr, hrs, Bool.true_eq_false,
      withStage_err 3 b.undistortOut e hu]
    simp only [exceptBlock_eq b hp, fireError_ok b h heh he, lastProgress,
      List.foldl_cons, List.foldl_nil]
    simp [finalState, applyEvent, countComplete, countError, List.countP_cons,
      List.countP_nil]
  | ok u =>
    refine Or.inl ?_
    simp only [runJob, tryBody, withUpd_eq b hp, h0, h1, h2, h3, Bool.false_eq_true,
      if_false, withStage_ok 0 b.extractOut n1 hx, withStage_ok 1 b.matchOut n2 hm,
      withStage_ok 2 b.reconstructOut r hr, hrs, Bool.true_eq_false,
      withStage_ok 3 b.undistortOut u hu, consE, fireComplete_ok b g hcg hc]
    refine ⟨?_, ⟨{ r with undistorted_path := some cfg.undistorted_path }, ?_, ?_, ?_⟩, ?_, ?_⟩
    · simp [finalState, applyEvent]
    · simp [finalState, applyEvent, hrs]
    · exact hrs
    · simp [hrs]
    · simp [countComplete, List.countP_cons, List.countP_nil]
    · simp [countError, List.countP_cons, List.countP_nil]

/-- Witness for C1 (amended): a fully successful run with all three
well-behaved callbacks supplied lands in the first disjunct. -/
theorem claim_C1_witness :
    bAllCallbacks.onComplete = some (fun _ => Except.ok ()) ∧
    (((finalState (runJob bAllCallbacks cfgW).1).stage = ColmapStage.DONE ∧
      (∃ r, (finalState (runJob bAllCallbacks cfgW).1).result = some r ∧
        r.success = true ∧
        REvent.completeCall r ∈ (runJob bAllCallbacks cfgW).1) ∧
      countComplete (runJob bAllCallbacks cfgW).1 = 1 ∧
      countError (runJob bAllCallbacks cfgW).1 = 0) ∨
    ((finalState (runJob bAllCallbacks cfgW).1).stage = ColmapStage.ERROR ∧
      countError (runJob bAllCallbacks cfgW).1 = 1 ∧
      countComplete (runJob bAllCallbacks cfgW).1 = 0) ∨
    ((finalState (runJob bAllCallbacks cfgW).1).stage = ColmapStage.CANCELLED ∧
      countComplete (runJob bAllCallbacks cfgW).1 = 0 ∧
      countError (runJob bAllCallbacks cfgW).1 = 0)) :=
  ⟨rfl, claim_C1_exactly_one_callback bAllCallbacks cfgW
    (fun _ _ _ => Except.ok ()) (fun _ => Except.ok ()) (fun _ => Except.ok ())
    rfl rfl rfl
    (ProgOk_of_const bAllCallbacks rfl) (CompleteOk_of_const bAllCallbacks rfl)
    (ErrorOk_of_const bAllCallbacks rfl)⟩

/-- Counterexample for C1 as stated: with all stages succeeding but a raising
`on_complete`, both the completion callback and the error callback fire in
the same run — the "completion and error callbacks never both fire"
guarantee does not hold for every behaviour of the user-supplied
callbacks. -/
theorem claim_C1_counterexample :
    countComplete (runJob bRaisingComplete cfgW).1 = 1 ∧
    countError (runJob bRaisingComplete cfgW).1 = 1 := by
  constructor <;> rfl

/-- C3 (amended): in a run where all four stage functions succeed, no
cancellation occurs and the supplied progress/completion callbacks return
normally, the published `(stage, progress)` sequence is exactly
Extracting@0, Extracting@25, Matching@25, Matching@50, Reconstructing@50,
Undistorting@75, Done@100 — the fixed even boundaries 0/25/50/75/100 are all
published, and extraction and matching each publish both an entering and a
completed update under their own label, but reconstruction and undistortion
publish only their entering updates (their completions are visible only as
the next stage's entering update and the final `Done`), contrary to the
original claim (see the counterexample). -/
theorem claim_C3_progress_schedule (b : Behaviour) (cfg : ColmapConfig)
    (r : ReconstructionResult)
    (hp : ProgOk b) (hcmp : CompleteOk b)
    (h0 : b.cancelRead 0 = false) (h1 : b.cancelRead 1 = false)
    (h2 : b.cancelRead 2 = false) (h3 : b.cancelRead 3 = false)
    (hx : ∃ n, b.extractOut = Except.ok n) (hm : ∃ n, b.matchOut = Except.ok n)
    (hr : b.reconstructOut = Except.ok r) (hrs : r.success = true)
    (hu : b.undistortOut = Except.ok ()) :
    updPairs (runJob b cfg).1 =
      [(ColmapStage.EXTRACTING, 0), (ColmapStage.EXTRACTING, 25),
       (ColmapStage.MATCHING, 25), (ColmapStage.MATCHING, 50),
       (ColmapStage.RECONSTRUCTING, 50), (ColmapStage.UNDISTORTING, 75),
       (ColmapStage.DONE, 100)] ∧
    (runJob b cfg).2 = none := by
  obtain ⟨n1, hxn⟩ := hx; obtain ⟨n2, hmn⟩ := hm
  simp only [runJob, tryBody, withUpd_eq b hp, h0, h1, h2, h3, Bool.false_eq_true, if_false,
    withStage_ok 0 b.extractOut n1 hxn, withStage_ok 1 b.matchOut n2 hmn,
    withStage_ok 2 b.reconstructOut r hr, hrs, Bool.true_eq_false,
    withStage_ok 3 b.undistortOut () hu, consE]
  cases hoc : b.onComplete with
  | none =>
    simp only [fireComplete_none b hoc]
    exact ⟨by simp [updPairs], trivial⟩
  | some g =>
    simp only [fireComplete_ok b g hoc hcmp]
    exact ⟨by simp [updPairs], trivial⟩

/-- Witness for C3 (amended): a concrete fully-successful run publishes
exactly the seven-pair schedule. -/
theorem claim_C3_witness :
    rW.success = true ∧
    (updPairs (runJob bBase cfgW).1 =
      [(ColmapStage.EXTRACTING, 0), (ColmapStage.EXTRACTING, 25),
       (ColmapStage.MATCHING, 25), (ColmapStage.MATCHING, 50),
       (ColmapStage.RECONSTRUCTING, 50), (ColmapStage.UNDISTORTING, 75),
       (ColmapStage.DONE, 100)] ∧
     (runJob bBase cfgW).2 = none) :=
  ⟨rfl, claim_C3_progress_schedule bBase cfgW rW
    (ProgOk_of_none bBase rfl) (CompleteOk_of_none bBase rfl)
    rfl rfl rfl rfl ⟨3, rfl⟩ ⟨5, rfl⟩ rfl rfl rfl⟩

/-- Counterexample for C3 as stated: in a concrete run in which all four
stage functions succeed and nothing is cancelled, the reconstruction stage
never publishes a completed update under its own label at its ending
percentage 75, and the undistortion stage never publishes one at 100 — so
not every stage's label appears with both its start and end percentage. -/
theorem claim_C3_counterexample :
    bBase.extractOut = Except.ok 3 ∧ bBase.matchOut = Except.ok 5 ∧
    bBase.undistortOut = Except.ok () ∧
    bBase.reconstructOut = Except.ok rW ∧ rW.success = true ∧
    (∀ k, bBase.cancelRead k = false) ∧
    (ColmapStage.RECONSTRUCTING, 75) ∉ updPairs (runJob bBase cfgW).1 ∧
    (ColmapStage.UNDISTORTING, 100) ∉ updPairs (runJob bBase cfgW).1 := by
  refine ⟨rfl, rfl, rfl, rfl, rfl, fun k => rfl, ?_, ?_⟩ <;> decide

/-- C8: within a single run — on every path, for every behaviour of the
stage functions, the cancellation flag and the user callbacks, including the
exception, structural-failure and cancellation paths — the sequence of
`(stage, progress)` pairs published by the worker is monotone: progress
never decreases, and the stage never regresses to an earlier stage of the
state machine (`stageRank` orders the four running stages linearly and makes
the three terminal states maximal and mutually unordered). -/
theorem claim_C8_monotone (b : Behaviour) (cfg : ColmapConfig) :
    List.Pairwise pairLe (updPairs (runJob b cfg).1) :=
  List.chain'_iff_pairwise.1 (chain_runJob b cfg).tail

/-- C9: (i) in every run, every reader-observable snapshot whose published
stage is `Done` already has a stored result, and that result is a successful
one — the result write precedes the `Done` publication; (ii) on the
exception path the `Error` stage is published before the failed result is
stored, so a reader can observe a snapshot with stage `Error` and no stored
result, exhibited on a concrete run whose extraction raises. -/
theorem claim_C9_done_result_invariant :
    (∀ (b : Behaviour) (cfg : ColmapConfig), ∀ s ∈ snapshots (runJob b cfg).1,
      s.stage = ColmapStage.DONE → ∃ r, s.result = some r ∧ r.success = true) ∧
    (∃ s ∈ snapshots (runJob bErrNoCb cfgW).1,
      s.stage = ColmapStage.ERROR ∧ s.result = none) := by
  constructor
  · intro b cfg s hs
    exact eventsOK_snapshots_inv (runJob b cfg).1 {} (runJob_eventsOK b cfg)
      (fun h => ColmapStage.noConfusion h) s hs
  · refine ⟨sErrW, ?_, rfl, rfl⟩
    exact List.Mem.tail _ (List.Mem.tail _ (List.Mem.tail _ (List.Mem.head _)))

/-- Witness for C9, part (i): the final state of a concrete successful run is
an observable snapshot with stage `Done`, and the theorem yields its stored
successful result. -/
theorem claim_C9_witness :
    (finalState (runJob bBase cfgW).1).stage = ColmapStage.DONE ∧
    (∃ r, (finalState (runJob bBase cfgW).1).result = some r ∧ r.success = true) :=
  ⟨rfl, claim_C9_done_result_invariant.1 bBase cfgW (finalState (runJob bBase cfgW).1)
    (finalState_mem_snapshots (runJob bBase cfgW).1) rfl⟩
